import Mathlib

/-!
# Verification of the custom-vm-autoscaler core

Shallow embedding, in Lean 4, of the parts of the `custom-vm-autoscaler`
repository that the examined properties are about:

* the policy resolver `getMIGScalingLimits` (internal/google/mig.go);
* the MIG sizing operations `AddNodeToMIG` / `RemoveNodeFromMIG`
  (internal/google/mig.go) and the URL helpers `getInstanceNameFromURL`
  (mig.go) and `getZoneFromURL` (internal/google/regionalMig.go);
* the Elasticsearch drain state machine: `updateClusterSettings`,
  `waitForNodeRemoval`, `ClearElasticsearchClusterSettings`,
  `DrainElasticsearchNode` (internal/elasticsearch/elasticsearch.go);
* the shard rebalancer: `calculateDesiredReplicas`, `getIndicesForAliases`,
  `getNodeCountForIndices`, `updateIndexReplicas`, `RebalanceShards`
  (internal/elasticsearch/elasticsearch.go), plus `filterIndices`, which is
  exercised by the repository's tests but whose definition is not among the
  provided sources and is therefore modelled from the spec.

Modelling conventions:

* Go `int`/`int32` values are modelled as unbounded `Int`. The sizes and
  replica counts involved are bounded by the cloud APIs far below the
  `int32` range, so wraparound is not modelled.
* All I/O against Google Compute and Elasticsearch is modelled by explicit
  environment records holding the responses the servers would return, plus
  an explicit trace of the calls the code issues (`Effect`). HTTP transport
  errors are not injected: the environments answer every request, so the
  only failures are the ones the control logic itself produces (timeouts,
  empty groups, malformed configuration).
* Wall-clock time is modelled by `TimeUTC` (weekday, second of day,
  nanosecond within the second); the drain-wait deadline is modelled by the
  number of 2-second poll ticks that fit before the deadline elapses
  (`maxPolls`), and the scripted `_cat/shards` responses by a function from
  the poll index to the shard list.
-/

namespace Autoscaler

/-! ## Go string primitives

`goSplit` models `strings.Split(s, sep)` for a one-character separator:
the result always has at least one element, and splitting the empty string
yields `[""]`, exactly as in Go. `goJoin` models `strings.Join`.
-/

/-- Character-list core of `strings.Split` with a one-character separator. -/
def splitChar (c : Char) : List Char → List (List Char)
  | [] => [[]]
  | x :: xs =>
    if x = c then [] :: splitChar c xs
    else
      match splitChar c xs with
      | [] => [[x]]
      | h :: t => (x :: h) :: t

/-- Models Go `strings.Split(s, String(c))`. -/
def goSplit (c : Char) (s : String) : List String :=
  (splitChar c s.data).map (fun l => String.mk l)

/-- Models Go `strings.Join(xs, sep)`. -/
def goJoin (sep : String) : List String → String
  | [] => ""
  | [x] => x
  | x :: xs => x ++ sep ++ goJoin sep xs

theorem splitChar_ne_nil (c : Char) (l : List Char) : splitChar c l ≠ [] := by
  induction l with
  | nil => simp [splitChar]
  | cons x xs ih =>
    simp only [splitChar]
    split
    · simp
    · split
      · simp
      · simp

theorem goSplit_ne_nil (c : Char) (s : String) : goSplit c s ≠ [] := by
  simp [goSplit, splitChar_ne_nil]

theorem splitChar_append_cons (c : Char) (xs ys : List Char) :
    splitChar c (xs ++ c :: ys) = splitChar c xs ++ splitChar c ys := by
  induction xs with
  | nil =>
    simp [splitChar]
  | cons x xs ih =>
    by_cases hx : x = c
    · simp [splitChar, hx, ih]
    · have h := splitChar_ne_nil c xs
      cases hsp : splitChar c xs with
      | nil => exact absurd hsp h
      | cons h' t' =>
        simp [List.cons_append, splitChar, hx, ih, hsp]

/-- Every piece produced by `splitChar` is free of the separator. -/
theorem splitChar_no_sep (c : Char) (l : List Char) :
    ∀ p ∈ splitChar c l, c ∉ p := by
  induction l with
  | nil => intro p hp; simp [splitChar] at hp; simp [hp]
  | cons x xs ih =>
    intro p hp
    simp only [splitChar] at hp
    by_cases hx : x = c
    · simp [hx] at hp
      rcases hp with hp | hp
      · simp [hp]
      · exact ih p hp
    · simp only [hx, if_false] at hp
      have h := splitChar_ne_nil c xs
      cases hsp : splitChar c xs with
      | nil => exact absurd hsp h
      | cons h' t' =>
        rw [hsp] at hp
        rcases List.mem_cons.mp hp with hp | hp
        · subst hp
          intro hc
          rcases List.mem_cons.mp hc with hc | hc
          · exact hx hc.symm
          · exact ih h' (by simp [hsp]) hc
        · exact ih p (by simp [hsp, hp])

/-- Splitting a separator-free list returns the singleton list. -/
theorem splitChar_of_no_sep (c : Char) (l : List Char) (h : c ∉ l) :
    splitChar c l = [l] := by
  induction l with
  | nil => simp [splitChar]
  | cons x xs ih =>
    simp only [List.mem_cons, not_or] at h
    have hx : ¬ x = c := fun hc => h.1 hc.symm
    simp only [splitChar, hx, if_false]
    rw [ih h.2]

/-- Joining separator-free pieces and splitting again is the identity. -/
theorem goSplit_goJoin (c : Char) (l : List String)
    (hne : l ≠ []) (hfree : ∀ p ∈ l, c ∉ p.data) :
    goSplit c (goJoin (String.mk [c]) l) = l := by
  induction l with
  | nil => exact absurd rfl hne
  | cons h t ih =>
    cases t with
    | nil =>
      have hh : c ∉ h.data := hfree h (by simp)
      simp [goSplit, goJoin, splitChar_of_no_sep c h.data hh]
    | cons h2 t2 =>
      have hh : c ∉ h.data := hfree h (by simp)
      have hrest : goSplit c (goJoin (String.mk [c]) (h2 :: t2)) = h2 :: t2 :=
        ih (by simp) (fun p hp => hfree p (List.mem_cons_of_mem _ hp))
      have hjoin : (goJoin (String.mk [c]) (h :: h2 :: t2)).data
          = h.data ++ c :: (goJoin (String.mk [c]) (h2 :: t2)).data := by
        show (h ++ String.mk [c] ++ goJoin (String.mk [c]) (h2 :: t2)).data = _
        simp
      simp only [goSplit] at hrest ⊢
      rw [hjoin, splitChar_append_cons, List.map_append,
        splitChar_of_no_sep c h.data hh, hrest]
      simp

/-! ## Time and configuration model -/

/-- The instant `time.Now().UTC()` observed by the policy resolver:
weekday (0 = Sunday .. 6 = Saturday, as Go's `time.Weekday`), the second of
the day, and the nanosecond within that second. -/
structure TimeUTC where
  weekday : Nat
  secOfDay : Nat
  nanos : Nat
deriving DecidableEq

/-- One entry of `autoscaler.advancedCustomScalingConfiguration`
(api/v1alpha1 `ConfigSpec`): comma-separated weekday numbers, an optional
`start-end` UTC hour range, and the override's policy fields (`0` means
"inherit the base value"). -/
structure ScalingOverride where
  days : String
  hoursUTC : String
  minSize : Int
  maxSize : Int
  scaleUpThreshold : Int
deriving DecidableEq

/-- The base scaling policy from the `autoscaler` section of the config. -/
structure AutoscalerBase where
  minSize : Int
  maxSize : Int
  scaleUpThreshold : Int
deriving DecidableEq

/-- Reads a list of decimal digits as a number; `none` if empty or if any
character is not a digit. -/
def decDigits? : List Char → Option Nat
  | [] => none
  | l =>
    if l.all Char.isDigit then
      some (l.foldl (fun acc ch => acc * 10 + (ch.toNat - '0'.toNat)) 0)
    else none

/-- Models Go `time.Parse("15:04:05", s)`, returning the parsed clock time
as seconds since midnight: a 1- or 2-digit hour `≤ 23`, then `:`, then a
2-digit minute `≤ 59`, then `:`, then a 2-digit second `≤ 59`. Any other
shape is a parse error (`none`). -/
def parseClock (s : String) : Option Nat :=
  match goSplit ':' s with
  | [h, m, sec] =>
    if h.data.length = 0 ∨ 2 < h.data.length then none
    else if m.data.length ≠ 2 ∨ sec.data.length ≠ 2 then none
    else
      match decDigits? h.data, decDigits? m.data, decDigits? sec.data with
      | some hv, some mv, some sv =>
        if hv ≤ 23 ∧ mv ≤ 59 ∧ sv ≤ 59 then some (hv * 3600 + mv * 60 + sv)
        else none
      | _, _, _ => none
  | _ => none

/-- Result of `getMIGScalingLimits`: either the four effective limits
`(minSize, maxSize, scaleUpThreshold, scaleDownThreshold)`, or the
process-terminating `log.Fatalf` the function invokes on a malformed
hour-range format. -/
inductive LimitsResult where
  | ok (minSize maxSize scaleUpThreshold scaleDownThreshold : Int)
  | fatal (msg : String)
deriving DecidableEq

/-- The per-override defaulting at the top of the resolver's loop: a field
left at `0` is replaced by the corresponding base value. -/
def applyDefaults (base : AutoscalerBase) (o : ScalingOverride) : ScalingOverride :=
  { o with
    scaleUpThreshold := if o.scaleUpThreshold = 0 then base.scaleUpThreshold else o.scaleUpThreshold
    minSize := if o.minSize = 0 then base.minSize else o.minSize
    maxSize := if o.maxSize = 0 then base.maxSize else o.maxSize }

/-- `currentTime.After(startTime)` where `startTime` is today's date at
`startSec` seconds (whole second, zero nanoseconds): strictly later. -/
def timeAfter (t : TimeUTC) (startSec : Nat) : Bool :=
  startSec * 1000000000 < t.secOfDay * 1000000000 + t.nanos

/-- `currentTime.Before(endTime)`: strictly earlier. -/
def timeBefore (t : TimeUTC) (endSec : Nat) : Bool :=
  t.secOfDay * 1000000000 + t.nanos < endSec * 1000000000

/-- Models Go `strings.TrimSpace`: drop whitespace from both ends. -/
def goTrimSpace (s : String) : String :=
  String.mk (((s.data.dropWhile Char.isWhitespace).reverse.dropWhile
    Char.isWhitespace).reverse)

/-- Whether some entry of the override's comma-separated `days` equals
(after `strings.TrimSpace`) the decimal rendering of the current weekday. -/
def dayMatches (o : ScalingOverride) (t : TimeUTC) : Bool :=
  (goSplit ',' o.days).any (fun d => goTrimSpace d == toString t.weekday)

/-- The outcome of the resolver's loop body for one override: `none` means
the loop falls through to the next override; `some r` means the function
returns with `r` (an `ok` quadruple or the `fatal` exit). The inner loop
over the day entries re-evaluates the same hour window on every entry that
names the current weekday, so a single evaluation guarded by `dayMatches`
is equivalent. -/
def overrideStep (base : AutoscalerBase) (t : TimeUTC) (o : ScalingOverride) :
    Option LimitsResult :=
  let o' := applyDefaults base o
  if dayMatches o t then
    if o'.hoursUTC ≠ "" then
      match goSplit '-' o'.hoursUTC with
      | [sh, eh] =>
        match parseClock sh with
        | none => some (.ok base.minSize base.maxSize base.scaleUpThreshold 1)
        | some startSec =>
          match parseClock eh with
          | none => some (.ok base.minSize base.maxSize base.scaleUpThreshold 1)
          | some endSec =>
            if timeAfter t startSec && timeBefore t endSec then
              some (.ok o'.minSize o'.maxSize o'.scaleUpThreshold 1)
            else none
      | _ => some (.fatal "Invalid hours format in advanced_scaling_configuration")
    else some (.ok o'.minSize o'.maxSize o'.scaleUpThreshold 1)
  else none

/-- `getMIGScalingLimits` (internal/google/mig.go): walks the override list
in declared order; the first override whose loop body returns decides the
result; otherwise the base limits apply. `scaleDownThreshold` is the
constant `1` throughout. -/
def getMIGScalingLimits (base : AutoscalerBase) (overrides : List ScalingOverride)
    (t : TimeUTC) : LimitsResult :=
  match overrides with
  | [] => .ok base.minSize base.maxSize base.scaleUpThreshold 1
  | o :: rest =>
    match overrideStep base t o with
    | some r => r
    | none => getMIGScalingLimits base rest t

/-! ## Elasticsearch and Compute API model -/

/-- One row of `_cat/shards` (api/v1alpha1 `ShardInfo`). -/
structure ShardInfo where
  index : String
  shard : String
  prirep : String
  state : String
  docs : String
  store : String
  dataset : String
  ip : String
  node : String
deriving DecidableEq

/-- One row of `_cat/aliases` (api/v1alpha1 `AliasInfo`). -/
structure AliasInfo where
  alias_ : String
  index : String
deriving DecidableEq

/-- One row of `_cat/indices` (api/v1alpha1 `IndexInfo`). -/
structure IndexInfo where
  health : String
  status : String
  index : String
  pri : String
  rep : String
  docsCount : String
  storeSize : String
deriving DecidableEq

/-- The mutable cluster state the drain machinery acts on: the value of the
persistent `cluster.routing.allocation.exclude._name` setting (`""` when
the setting is absent or null). -/
structure ESState where
  excludes : String
deriving DecidableEq

/-- One API call issued by the embedded code, in order. -/
inductive Effect where
  | getTargetSize
  | listInstances
  | resizeMIG (n : Int)
  | deleteInstances (name : String)
  | getSettings
  | putSettings (v : Option String)
  | catShards
  | catAliases
  | catIndices
  | putIndexSettings (index : String) (replicas : Int)
  | sleepSec (n : Nat)
  | notifySlack (msg : String)
deriving DecidableEq

/-- Calls that change server-side state: MIG resize, instance deletion,
cluster-settings PUT, index-settings PUT. -/
def Effect.isMutating : Effect → Bool
  | .resizeMIG _ => true
  | .deleteInstances _ => true
  | .putSettings _ => true
  | .putIndexSettings _ _ => true
  | _ => false

/-- Read-only queries. -/
def Effect.isReadOnly : Effect → Bool
  | .getTargetSize => true
  | .listInstances => true
  | .getSettings => true
  | .catShards => true
  | .catAliases => true
  | .catIndices => true
  | _ => false

def Effect.isDelete : Effect → Bool
  | .deleteInstances _ => true
  | _ => false

def Effect.isResize : Effect → Bool
  | .resizeMIG _ => true
  | _ => false

/-- `updateClusterSettings` (internal/elasticsearch/elasticsearch.go):
reads the current exclusion list; if the node is already among the
comma-separated excluded names, returns at once; otherwise appends the
name (comma-joined) and PUTs the new list — unless debug mode skips the
PUT. Returns the error-or-unit result, the cluster state afterwards, and
the API calls issued. -/
def updateClusterSettings (debugMode : Bool) (nodeName : String) (st : ESState) :
    Except String Unit × ESState × List Effect :=
  let currentExcludes := st.excludes
  if currentExcludes ≠ "" && (goSplit ',' currentExcludes).contains nodeName then
    (.ok (), st, [.getSettings])
  else
    let newName := if currentExcludes ≠ "" then currentExcludes ++ "," ++ nodeName else nodeName
    if debugMode then
      (.ok (), st, [.getSettings])
    else
      (.ok (), { excludes := newName }, [.getSettings, .putSettings (some newName)])

/-- `ClearElasticsearchClusterSettings` (elasticsearch.go): reads the
current exclusion list; if empty, returns at once; otherwise drops every
entry equal to the node name and PUTs the remaining comma-joined list, or
null when nothing remains — unless debug mode skips the PUT. -/
def ClearElasticsearchClusterSettings (debugMode : Bool) (nodeName : String)
    (st : ESState) : Except String Unit × ESState × List Effect :=
  let currentExcludes := st.excludes
  if currentExcludes = "" then
    (.ok (), st, [.getSettings])
  else
    let remainingNames := (goSplit ',' currentExcludes).filter (fun n => n ≠ nodeName)
    let newExcludes : Option String :=
      if 0 < remainingNames.length then some (goJoin "," remainingNames) else none
    if debugMode then
      (.ok (), st, [.getSettings])
    else
      (.ok (), { excludes := newExcludes.getD "" }, [.getSettings, .putSettings newExcludes])

/-- Whether the first list is an initial segment of the second. -/
def listStartsWith : List Char → List Char → Bool
  | [], _ => true
  | _ :: _, [] => false
  | a :: as, b :: bs => a == b && listStartsWith as bs

/-- Whether `needle` occurs contiguously inside `hay`. -/
def listSubstr (needle : List Char) : List Char → Bool
  | [] => needle.isEmpty
  | h :: t => listStartsWith needle (h :: t) || listSubstr needle t

/-- `re.MatchString(shard.Node)` where `re = regexp.Compile(nodeName)`:
for the metacharacter-free instance names the autoscaler passes, regex
matching is substring containment. -/
def nodeNameMatches (nodeName nodeField : String) : Bool :=
  listSubstr nodeName.data nodeField.data

/-- The `select` loop of `waitForNodeRemoval`, fuel-indexed: `fuel` is the
number of 2-second ticker firings left before the drain deadline elapses,
`i` the index of the upcoming `_cat/shards` poll in the scripted feed.
When the deadline elapses first, the code notifies Slack (when a webhook
is configured), clears the victim from the exclusion list and returns an
error; when a poll shows no shard on the victim, it returns success. -/
def waitLoop (debugMode : Bool) (webhookURL nodeName : String)
    (polls : Nat → List ShardInfo) :
    Nat → Nat → ESState → Except String Unit × ESState × List Effect
  | 0, _, st =>
    let notifyFx : List Effect :=
      if webhookURL ≠ "" then
        [.notifySlack ("Timeout draining instance " ++ nodeName ++ " in elasticsearch")]
      else []
    let c := ClearElasticsearchClusterSettings debugMode nodeName st
    match c.1 with
    | .error e =>
      (.error ("error clearing cluster settings: " ++ e), c.2.1, notifyFx ++ c.2.2)
    | .ok _ =>
      (.error "timeout trying to remove node from cluster settings in elasticsearch",
        c.2.1, notifyFx ++ c.2.2)
  | fuel + 1, i, st =>
    let shards := polls i
    let nodeFound := shards.any (fun sh => nodeNameMatches nodeName sh.node)
    if !nodeFound then
      (.ok (), st, [.catShards])
    else
      let r := waitLoop debugMode webhookURL nodeName polls fuel (i + 1) st
      (r.1, r.2.1, .catShards :: r.2.2)

/-- `waitForNodeRemoval` (elasticsearch.go): poll `_cat/shards` every two
seconds until no shard sits on the victim, or until the drain deadline
(`maxPolls` ticks) elapses. -/
def waitForNodeRemoval (debugMode : Bool) (webhookURL nodeName : String)
    (polls : Nat → List ShardInfo) (maxPolls : Nat) (st : ESState) :
    Except String Unit × ESState × List Effect :=
  waitLoop debugMode webhookURL nodeName polls maxPolls 0 st

/-- `DrainElasticsearchNode` (elasticsearch.go): exclude the victim from
allocation, then — only outside debug mode — wait for its shards to be
evacuated. -/
def DrainElasticsearchNode (debugMode : Bool) (webhookURL nodeName : String)
    (polls : Nat → List ShardInfo) (maxPolls : Nat) (st : ESState) :
    Except String Unit × ESState × List Effect :=
  match updateClusterSettings debugMode nodeName st with
  | (.error e, st1, fx1) =>
    (.error ("failed to update cluster settings: " ++ e), st1, fx1)
  | (.ok _, st1, fx1) =>
    if !debugMode then
      match waitForNodeRemoval debugMode webhookURL nodeName polls maxPolls st1 with
      | (.error e, st2, fx2) =>
        (.error ("failed while waiting for node removal: " ++ e), st2, fx1 ++ fx2)
      | (.ok _, st2, fx2) => (.ok (), st2, fx1 ++ fx2)
    else
      (.ok (), st1, fx1)

/-- `updateIndexReplicas` (elasticsearch.go): in debug mode the
`PUT index/_settings` is skipped and logged; otherwise it is issued. -/
def updateIndexReplicas (debugMode : Bool) (indexName : String) (replicas : Int) :
    Except String Unit × List Effect :=
  if debugMode then
    (.ok (), [])
  else
    (.ok (), [.putIndexSettings indexName replicas])

/-! ## Shard rebalancer -/

/-- `calculateDesiredReplicas` (elasticsearch.go): guard the degenerate
inputs, take `ceil(nodeCount / totalPrimaries) - 1`, raise to
`minReplicas`, then cap at `maxReplicas` when `maxReplicas > 0`. The Go
code takes the ceiling through `float64` / `math.Ceil`, which agrees with
the exact ceiling for the magnitudes the `_cat` APIs can report (far below
`2^53`); past the guard both arguments are positive, so the exact ceiling
is `(nodeCount + totalPrimaries - 1) / totalPrimaries` (the divisions of
positive operands on which Go's and Lean's integer `/` agree); the theorem
below relates it to `Int.ceil` over `ℚ`. -/
def calculateDesiredReplicas (nodeCount totalPrimaries maxReplicas minReplicas : Int) : Int :=
  if totalPrimaries ≤ 0 ∨ nodeCount ≤ 0 then minReplicas
  else
    let desired := (nodeCount + totalPrimaries - 1) / totalPrimaries - 1
    let desired := if desired < minReplicas then minReplicas else desired
    if 0 < maxReplicas ∧ maxReplicas < desired then maxReplicas else desired

/-- The ceiling of a fraction of integers with positive denominator, as an
integer division. -/
theorem ceil_ratCast_div (n t : Int) (ht : 0 < t) :
    ⌈(n : ℚ) / (t : ℚ)⌉ = (n + t - 1) / t := by
  have hq := Int.ediv_add_emod (n + t - 1) t
  have hr0 : 0 ≤ (n + t - 1) % t := Int.emod_nonneg _ (by omega)
  have hrt : (n + t - 1) % t < t := Int.emod_lt_of_pos _ ht
  have htQ : (0 : ℚ) < (t : ℚ) := by exact_mod_cast ht
  rw [Int.ceil_eq_iff]
  constructor
  · rw [lt_div_iff₀ htQ]
    have : ((n + t - 1) / t - 1) * t < n := by nlinarith [hq, hr0, hrt]
    calc ((((n + t - 1) / t : Int) : ℚ) - 1) * (t : ℚ)
        = ((((n + t - 1) / t - 1 : Int) : ℚ)) * (t : ℚ) := by push_cast; ring
      _ < (n : ℚ) := by
          rw [show (((n + t - 1) / t - 1 : Int) : ℚ) * (t : ℚ)
              = ((((n + t - 1) / t - 1) * t : Int) : ℚ) by push_cast; ring]
          exact_mod_cast this
  · rw [div_le_iff₀ htQ]
    have : n ≤ ((n + t - 1) / t) * t := by nlinarith [hq, hr0, hrt]
    rw [show (((n + t - 1) / t : Int) : ℚ) * (t : ℚ)
        = ((((n + t - 1) / t) * t : Int) : ℚ) by push_cast; ring]
    exact_mod_cast this

/-- Models Go `strconv.Atoi`: an optional sign followed by at least one
decimal digit; anything else is an error. -/
def goAtoi (s : String) : Option Int :=
  match s.data with
  | '-' :: rest => (decDigits? rest).map (fun n => -(n : Int))
  | '+' :: rest => (decDigits? rest).map (fun n => (n : Int))
  | l => (decDigits? l).map (fun n => (n : Int))

/-- Order-preserving de-duplication via a "seen" set, as in the Go loops. -/
def dedup (l : List String) : List String :=
  l.foldl (fun acc x => if acc.contains x then acc else acc ++ [x]) []

/-- The responses the Elasticsearch server returns to the rebalancer's
read-only queries, as functions of the requested names. -/
structure ESEnv where
  aliasesResp : List String → List AliasInfo
  indicesResp : List String → List IndexInfo
  shardsResp : List String → List ShardInfo

/-- `getIndicesForAliases` (elasticsearch.go): resolve alias patterns via
`_cat/aliases`, de-duplicate the target index names in order of first
appearance, then fetch those indices' rows from `_cat/indices`. No
filtering of any kind is applied to the returned rows. -/
def getIndicesForAliases (env : ESEnv) (aliases : List String) :
    List IndexInfo × List Effect :=
  if aliases.length = 0 then ([], [])
  else
    let aliasInfos := env.aliasesResp aliases
    let indexNames := dedup (aliasInfos.map (fun a => a.index))
    if indexNames.length = 0 then ([], [.catAliases])
    else (env.indicesResp indexNames, [.catAliases, .catIndices])

/-- `getNodeCountForIndices` (elasticsearch.go): the number of distinct
non-empty node names among the shards of the given indices. -/
def getNodeCountForIndices (env : ESEnv) (indexNames : List String) :
    Int × List Effect :=
  if indexNames.length = 0 then (0, [])
  else
    let shards := env.shardsResp indexNames
    let uniqueNodes := dedup ((shards.filterMap
      (fun sh => if sh.node ≠ "" then some sh.node else none)))
    ((uniqueNodes.length : Int), [.catShards])

/-- `RebalanceShards` (elasticsearch.go): resolve the alias group, count
the nodes hosting its shards, sum the primary counts, compute the desired
replica count, and update every index whose current replica count differs;
per-index parse failures and update failures are skipped. Returns the
number of indices modified and the trace of API calls. -/
def RebalanceShards (debugMode : Bool) (env : ESEnv) (aliases : List String)
    (maxReplicas minReplicas : Int) : Int × List Effect :=
  let resolved := getIndicesForAliases env aliases
  let filtered := resolved.1
  if filtered.length = 0 then (0, resolved.2)
  else
    let indexNames := filtered.map (fun idx => idx.index)
    let counted := getNodeCountForIndices env indexNames
    let totalPrimaries := filtered.foldl
      (fun acc idx => match goAtoi idx.pri with
        | none => acc
        | some p => acc + p) 0
    let desired := calculateDesiredReplicas counted.1 totalPrimaries maxReplicas minReplicas
    let step := fun (acc : Int × List Effect) (idx : IndexInfo) =>
      match goAtoi idx.rep with
      | none => acc
      | some currentReplicas =>
        if currentReplicas = desired then acc
        else
          match updateIndexReplicas debugMode idx.index desired with
          | (.error _, fx) => (acc.1, acc.2 ++ fx)
          | (.ok _, fx) => (acc.1 + 1, acc.2 ++ fx)
    filtered.foldl step (0, resolved.2 ++ counted.2)

/-- Glob matching with the `*` wildcard, over character lists. -/
def globMatchL : List Char → List Char → Bool
  | [], [] => true
  | [], _ :: _ => false
  | '*' :: ps, s =>
    globMatchL ps s ||
      (match s with
       | [] => false
       | _ :: s' => globMatchL ('*' :: ps) s')
  | _ :: _, [] => false
  | p :: ps, c :: s => p == c && globMatchL ps s
termination_by p s => (p.length, s.length)

/-- Glob matching on strings. -/
def globMatch (pattern s : String) : Bool :=
  globMatchL pattern.data s.data

/-- Modelled from the spec: `filterIndices`, the name-pattern mode of
index-group resolution, is exercised by the repository's test
`TestFilterIndices` but its definition is not among the provided sources.
Per the spec: only indices with open status are eligible; indices whose
name starts with `.` are system indices, included only when
`includeSystem` is set; with a non-empty pattern list an index must match
some name-glob pattern, and with no patterns every index is a candidate. -/
def filterIndices (indices : List IndexInfo) (patterns : List String)
    (includeSystem : Bool) : List IndexInfo :=
  indices.filter (fun idx =>
    idx.status == "open" &&
    (includeSystem || !(listStartsWith ['.'] idx.index.data)) &&
    (patterns.isEmpty || patterns.any (fun p => globMatch p idx.index)))

/-! ## Managed instance group operations -/

/-- `getInstanceNameFromURL` (internal/google/mig.go): the last
`/`-separated component of the instance URL, with a `""` fallback behind a
`len(parts) > 0` guard. -/
def getInstanceNameFromURL (instanceURL : String) : String :=
  let parts := goSplit '/' instanceURL
  if 0 < parts.length then parts.getD (parts.length - 1) "" else ""

/-- `getZoneFromURL` (internal/google/regionalMig.go): the third-from-last
`/`-separated component, behind the same `len(parts) > 0` guard. In Go,
`parts[len(parts)-3]` panics when `len(parts) < 3`; `none` models that
out-of-range access, `some` the values actually returned. -/
def getZoneFromURL (instanceURL : String) : Option String :=
  let parts := goSplit '/' instanceURL
  if 0 < parts.length then
    if 3 ≤ parts.length then some (parts.getD (parts.length - 3) "") else none
  else some ""

/-- The Compute backend's answers for one scaling iteration: the MIG's
reported target size, the managed-instance URLs, and the index drawn by
`crypto/rand` for victim selection (reduced modulo the list length, which
is how the code requests it). -/
structure MIGEnv where
  targetSize : Int
  instanceURLs : List String
  randomIndex : Nat

/-- The URL-stripped name of the managed instance the random draw selects. -/
def selectedVictim (env : MIGEnv) : String :=
  getInstanceNameFromURL
    (env.instanceURLs.getD (env.randomIndex % env.instanceURLs.length) "")

/-- `GetInstanceToRemove` (mig.go): error on an empty group, otherwise the
URL-stripped name of a randomly selected managed instance. -/
def GetInstanceToRemove (env : MIGEnv) : Except String String × List Effect :=
  if env.instanceURLs.length = 0 then
    (.error "no instances found in the MIG", [.listInstances])
  else
    (.ok (selectedVictim env), [.listInstances])

/-- Result of `AddNodeToMIG`: the `(currentSize, maxSize)` pair returned
with a nil error — `(-1, -1)` is the at-capacity sentinel — or an error,
or the process-terminating `log.Fatalf` reached inside the policy
resolver. -/
inductive AddResult where
  | ok (size maxSize : Int)
  | err (msg : String)
  | fatal (msg : String)
deriving DecidableEq

/-- `AddNodeToMIG` (mig.go): read the target size, resolve the limits,
and resize to `targetSize + scaleUpThreshold` unless that exceeds
`maxSize` (a logged no-op) or debug mode skips the resize. -/
def AddNodeToMIG (debugMode : Bool) (base : AutoscalerBase)
    (overrides : List ScalingOverride) (t : TimeUTC) (env : MIGEnv) :
    AddResult × List Effect :=
  match getMIGScalingLimits base overrides t with
  | .fatal m => (.fatal m, [.getTargetSize])
  | .ok _ maxSize scaleUpThreshold _ =>
    let desiredSize := env.targetSize + scaleUpThreshold
    if maxSize < desiredSize then (.ok (-1) (-1), [.getTargetSize])
    else if debugMode then (.ok desiredSize maxSize, [.getTargetSize])
    else (.ok desiredSize maxSize, [.getTargetSize, .resizeMIG desiredSize])

/-- Result of `RemoveNodeFromMIG`: the `(currentSize, minSize, victim)`
triple returned with a nil error — `(-1, -1, "")` is the at-floor
sentinel — or an error, or the resolver's `log.Fatalf`. -/
inductive RemoveResult where
  | ok (size minSize : Int) (victim : String)
  | err (msg : String)
  | fatal (msg : String)
deriving DecidableEq

/-- Modelled from the spec: `UndrainElasticsearchNode` is called by
`RemoveNodeFromMIG` when clearing the exclusion fails after the instance
deletion, but its definition is not among the provided sources. Per the
spec (§4.4), it removes the victim from the exclusion list and then polls
node membership until the name reappears or the rejoin deadline elapses;
in this environment model the settings write always succeeds and the
rejoin wait observes the happy path, so the observable behaviour is the
exclusion-list removal. -/
def UndrainElasticsearchNode (debugMode : Bool) (nodeName : String) (st : ESState) :
    Except String Unit × ESState × List Effect :=
  ClearElasticsearchClusterSettings debugMode nodeName st

/-- `RemoveNodeFromMIG` (mig.go): read the target size, resolve the
limits, stop at the floor sentinel, select a victim, drain it from
Elasticsearch when a target is configured (returning its error *before*
any `DeleteInstances` call), then delete the instance, wait out the
provider's 90-second deletion window, and clear the victim's exclusion
entry (attempting the undrain rollback if that clear fails). Debug mode
skips the delete, the sleep and every settings PUT. -/
def RemoveNodeFromMIG (debugMode : Bool) (base : AutoscalerBase)
    (overrides : List ScalingOverride) (t : TimeUTC) (env : MIGEnv)
    (esConfigured : Bool) (webhookURL : String)
    (polls : Nat → List ShardInfo) (maxPolls : Nat) (st : ESState) :
    RemoveResult × ESState × List Effect :=
  match getMIGScalingLimits base overrides t with
  | .fatal m => (.fatal m, st, [.getTargetSize])
  | .ok minSize _ _ scaleDownThreshold =>
    let desiredSize := env.targetSize - scaleDownThreshold
    if desiredSize < minSize then (.ok (-1) (-1) "", st, [.getTargetSize])
    else
      match GetInstanceToRemove env with
      | (.error e, fx) =>
        (.err ("error getting instance to remove: " ++ e), st, .getTargetSize :: fx)
      | (.ok instanceToRemove, fx) =>
        let afterDrain : Except String Unit × ESState × List Effect :=
          if esConfigured then
            DrainElasticsearchNode debugMode webhookURL instanceToRemove polls maxPolls st
          else (.ok (), st, [])
        match afterDrain with
        | (.error e, st1, dfx) =>
          (.err ("error draining Elasticsearch node: " ++ e), st1,
            .getTargetSize :: fx ++ dfx)
        | (.ok _, st1, dfx) =>
          let delFx : List Effect :=
            if debugMode then [] else [.deleteInstances instanceToRemove]
          let sleepFx : List Effect := if debugMode then [] else [.sleepSec 90]
          if esConfigured then
            match ClearElasticsearchClusterSettings debugMode instanceToRemove st1 with
            | (.error _, st2, cfx) =>
              match UndrainElasticsearchNode debugMode instanceToRemove st2 with
              | (.error e2, st3, ufx) =>
                (.err ("error reverting Elasticsearch cluster settings after timeout: " ++ e2),
                  st3, .getTargetSize :: fx ++ dfx ++ delFx ++ sleepFx ++ cfx ++ ufx)
              | (.ok _, st3, ufx) =>
                (.err "node reintegrated due to timeout during removal",
                  st3, .getTargetSize :: fx ++ dfx ++ delFx ++ sleepFx ++ cfx ++ ufx)
            | (.ok _, st2, cfx) =>
              (.ok desiredSize minSize instanceToRemove,
                st2, .getTargetSize :: fx ++ dfx ++ delFx ++ sleepFx ++ cfx)
          else
            (.ok desiredSize minSize instanceToRemove,
              st1, .getTargetSize :: fx ++ dfx ++ delFx ++ sleepFx)

/-! ## Claim C2: the desired-replica formula -/

/-- C2. For all integers, `calculateDesiredReplicas` returns `minReplicas`
whenever `totalPrimaries ≤ 0` or `nodeCount ≤ 0`, and otherwise returns
`ceil(nodeCount/totalPrimaries) - 1` clamped to `[minReplicas, maxReplicas]`
where `maxReplicas = 0` means no upper cap; in particular
`(17, 45, min 1) ↦ 1`, `(100, 45) ↦ 2` and `(100, 10, max 3) ↦ 3`. The
range hypotheses say the configured bounds form a meaningful range
(non-negative floor; cap absent or at least the floor), which the claim's
interval notation presumes. -/
theorem calculateDesiredReplicas_meets_spec
    (nodeCount totalPrimaries maxReplicas minReplicas : Int)
    (hmin : 0 ≤ minReplicas) (hrange : maxReplicas = 0 ∨ minReplicas ≤ maxReplicas) :
    ((totalPrimaries ≤ 0 ∨ nodeCount ≤ 0) →
      calculateDesiredReplicas nodeCount totalPrimaries maxReplicas minReplicas
        = minReplicas)
    ∧ (0 < totalPrimaries → 0 < nodeCount →
      calculateDesiredReplicas nodeCount totalPrimaries maxReplicas minReplicas
        = if maxReplicas = 0 then
            max minReplicas (⌈(nodeCount : ℚ) / (totalPrimaries : ℚ)⌉ - 1)
          else
            min maxReplicas
              (max minReplicas (⌈(nodeCount : ℚ) / (totalPrimaries : ℚ)⌉ - 1)))
    ∧ calculateDesiredReplicas 17 45 0 1 = 1
    ∧ calculateDesiredReplicas 100 45 0 1 = 2
    ∧ calculateDesiredReplicas 100 10 3 1 = 3 := by
  refine ⟨fun h0 => by simp [calculateDesiredReplicas, h0], ?_, by decide, by decide, by decide⟩
  intro ht hn
  have hguard : ¬ (totalPrimaries ≤ 0 ∨ nodeCount ≤ 0) := by omega
  rw [ceil_ratCast_div nodeCount totalPrimaries ht]
  simp only [calculateDesiredReplicas, hguard, if_false]
  generalize (nodeCount + totalPrimaries - 1) / totalPrimaries - 1 = d
  simp only [max_def, min_def]
  split_ifs <;> omega

/-- C2 witness: the theorem instantiated at `(11, 5, cap 4, floor 1)`. -/
theorem calculateDesiredReplicas_meets_spec_witness :
    calculateDesiredReplicas 11 5 4 1
      = min 4 (max 1 (⌈(11 : ℚ) / (5 : ℚ)⌉ - 1)) :=
  ((calculateDesiredReplicas_meets_spec 11 5 4 1 (by decide)
    (Or.inr (by decide))).2.1 (by decide) (by decide)).trans (by norm_num)

/-! ## Claim C3: the resolver is not total — a malformed hour range is fatal -/

/-- C3 (refuting the code, supporting the claim as the intent): at an
override whose `days` field names the current weekday and whose `hoursUTC`
string has no dash (`"4:00:00"`), `getMIGScalingLimits` reaches
`log.Fatalf` — modelled by the `fatal` result — instead of degrading to
the base policy: the resolver does terminate the process on this
malformed hour-range string. (The `return` statement directly after the
`log.Fatalf` in the source, which would return exactly the base limits,
is dead code — evidence that the fallback, not the fatal exit, was the
intent.) -/
theorem resolver_fatal_on_dashless_hours :
    getMIGScalingLimits ⟨1, 10, 1⟩ [⟨"3", "4:00:00", 5, 8, 2⟩] ⟨3, 0, 0⟩
      = .fatal "Invalid hours format in advanced_scaling_configuration" := by
  decide

/-! ## Claim C10: URL component extraction -/

/-- C10. `strings.Split` always yields at least one element, so
`getInstanceNameFromURL` is total — it returns the last component and its
empty-string fallback is unreachable — while `getZoneFromURL`, indexing
`parts[len(parts)-3]` behind the same `len(parts) > 0` guard, is
well-defined exactly for inputs with at least three `/`-separated
components; on every shorter input the index is out of bounds (`none`). -/
theorem urlHelpers_index_bounds (s : String) :
    0 < (goSplit '/' s).length
    ∧ getInstanceNameFromURL s = (goSplit '/' s).getLast (goSplit_ne_nil '/' s)
    ∧ ((getZoneFromURL s).isSome ↔ 3 ≤ (goSplit '/' s).length) := by
  have hne := goSplit_ne_nil '/' s
  have hlen : 0 < (goSplit '/' s).length := List.length_pos.mpr hne
  refine ⟨hlen, ?_, ?_⟩
  · rw [getInstanceNameFromURL, if_pos hlen, List.getLast_eq_getElem,
      List.getD_eq_getElem?_getD, List.getElem?_eq_getElem (by omega)]
    rfl
  · rw [getZoneFromURL, if_pos hlen]
    rcases le_or_lt 3 (goSplit '/' s).length with h | h
    · simp [h]
    · rw [if_neg (by omega)]
      simp
      omega

/-- C10 witness: instantiated at a three-component URL. -/
theorem urlHelpers_index_bounds_witness :
    0 < (goSplit '/' "zones/z/instances").length
    ∧ getInstanceNameFromURL "zones/z/instances"
        = (goSplit '/' "zones/z/instances").getLast (goSplit_ne_nil '/' "zones/z/instances")
    ∧ ((getZoneFromURL "zones/z/instances").isSome
        ↔ 3 ≤ (goSplit '/' "zones/z/instances").length) :=
  urlHelpers_index_bounds "zones/z/instances"

/-! ## Resolver helper lemmas -/

theorem getMIGScalingLimits_cons_none (base : AutoscalerBase) (o : ScalingOverride)
    (rest : List ScalingOverride) (t : TimeUTC) (h : overrideStep base t o = none) :
    getMIGScalingLimits base (o :: rest) t = getMIGScalingLimits base rest t := by
  simp only [getMIGScalingLimits]
  rw [h]

theorem getMIGScalingLimits_cons_some (base : AutoscalerBase) (o : ScalingOverride)
    (rest : List ScalingOverride) (t : TimeUTC) (r : LimitsResult)
    (h : overrideStep base t o = some r) :
    getMIGScalingLimits base (o :: rest) t = r := by
  simp only [getMIGScalingLimits]
  rw [h]

theorem getMIGScalingLimits_append_none (base : AutoscalerBase)
    (pre l : List ScalingOverride) (t : TimeUTC)
    (h : ∀ o' ∈ pre, overrideStep base t o' = none) :
    getMIGScalingLimits base (pre ++ l) t = getMIGScalingLimits base l t := by
  induction pre with
  | nil => rfl
  | cons o rest ih =>
    rw [List.cons_append,
      getMIGScalingLimits_cons_none base o (rest ++ l) t (h o (by simp)),
      ih (fun o' ho' => h o' (List.mem_cons_of_mem _ ho'))]

/-- When the override's weekday matches and its hour range parses as
`[sh, eh]`, the loop body reduces to the window test. -/
theorem overrideStep_with_window (base : AutoscalerBase) (o : ScalingOverride)
    (t : TimeUTC) (sh eh : String) (startSec endSec : Nat)
    (hd : dayMatches o t = true)
    (hsplit : goSplit '-' o.hoursUTC = [sh, eh])
    (hs : parseClock sh = some startSec)
    (he : parseClock eh = some endSec) :
    overrideStep base t o =
      if timeAfter t startSec && timeBefore t endSec then
        some (.ok (if o.minSize = 0 then base.minSize else o.minSize)
          (if o.maxSize = 0 then base.maxSize else o.maxSize)
          (if o.scaleUpThreshold = 0 then base.scaleUpThreshold else o.scaleUpThreshold) 1)
      else none := by
  have hne : o.hoursUTC ≠ "" := by
    intro h0
    rw [h0] at hsplit
    have h1 : goSplit '-' "" = [""] := rfl
    rw [h1] at hsplit
    simp at hsplit
  simp only [overrideStep, applyDefaults, hd, if_true, hne, ne_eq,
    not_false_iff, if_pos, hsplit, hs, he]

/-- The resolver's own notion of "the current time matches this override's
weekday-and-hour window": the weekday matches and either no hour range is
configured (all-day) or the range parses and strictly contains the time. -/
def overrideApplies (t : TimeUTC) (o : ScalingOverride) : Bool :=
  dayMatches o t &&
    (o.hoursUTC == "" ||
      match goSplit '-' o.hoursUTC with
      | [sh, eh] =>
        match parseClock sh, parseClock eh with
        | some s, some e => timeAfter t s && timeBefore t e
        | _, _ => false
      | _ => false)

/-- A matching override makes the loop body return its (inherited) limits. -/
theorem overrideStep_of_applies (base : AutoscalerBase) (o : ScalingOverride)
    (t : TimeUTC) (h : overrideApplies t o = true) :
    overrideStep base t o =
      some (.ok (if o.minSize = 0 then base.minSize else o.minSize)
        (if o.maxSize = 0 then base.maxSize else o.maxSize)
        (if o.scaleUpThreshold = 0 then base.scaleUpThreshold else o.scaleUpThreshold) 1) := by
  rw [overrideApplies, Bool.and_eq_true] at h
  obtain ⟨hd, hrest⟩ := h
  by_cases hne : o.hoursUTC = ""
  · simp only [overrideStep, applyDefaults, hd, if_true, hne]
    simp
  · rw [Bool.or_eq_true] at hrest
    rcases hrest with hempty | hwin
    · exact absurd (by simpa using hempty) hne
    · cases hsplit : goSplit '-' o.hoursUTC with
      | nil => exact absurd hsplit (goSplit_ne_nil '-' o.hoursUTC)
      | cons a as =>
        rw [hsplit] at hwin
        match as, hwin with
        | [b], hwin =>
          have hwin' : (match parseClock a, parseClock b with
              | some s, some e => timeAfter t s && timeBefore t e
              | _, _ => false) = true := hwin
          cases hs : parseClock a with
          | none => rw [hs] at hwin'; simp at hwin'
          | some startSec =>
            cases he : parseClock b with
            | none => rw [hs, he] at hwin'; simp at hwin'
            | some endSec =>
              rw [hs, he] at hwin'
              rw [overrideStep_with_window base o t a b startSec endSec hd hsplit hs he,
                if_pos hwin']

/-! ## Claim C6: first-match override resolution with inheritance -/

/-- C6 (amended): when every earlier override falls through (its loop body
neither returns nor dies — in particular none of them has a matching
weekday with a malformed or unparseable hour range) and the time matches
the override's weekday-and-hour window, the resolver returns that
override's `minSize`, `maxSize` and `scaleUpThreshold` with each
zero-valued field inherited from the base policy — independently of the
overrides after the match, which are never evaluated. -/
theorem resolver_first_match (base : AutoscalerBase)
    (pre post : List ScalingOverride) (o : ScalingOverride) (t : TimeUTC)
    (hpre : ∀ o' ∈ pre, overrideStep base t o' = none)
    (ho : overrideApplies t o = true) :
    getMIGScalingLimits base (pre ++ o :: post) t =
      .ok (if o.minSize = 0 then base.minSize else o.minSize)
        (if o.maxSize = 0 then base.maxSize else o.maxSize)
        (if o.scaleUpThreshold = 0 then base.scaleUpThreshold else o.scaleUpThreshold) 1 := by
  rw [getMIGScalingLimits_append_none base pre (o :: post) t hpre]
  exact getMIGScalingLimits_cons_some base o post t _ (overrideStep_of_applies base o t ho)

/-- C6 witness: base `(1, 10, 1)`; a non-matching override (weekday `5`)
followed by a matching one (`minSize 9`, `maxSize 0` inheriting the base
`10`, `scaleUpThreshold 2`), and a trailing override that is never
evaluated. -/
theorem resolver_first_match_witness :
    getMIGScalingLimits ⟨1, 10, 1⟩
      [⟨"5", "", 3, 3, 3⟩, ⟨"1,2", "04:00:00-06:00:00", 9, 0, 2⟩, ⟨"2", "", 4, 4, 4⟩]
      ⟨2, 18000, 0⟩ = .ok 9 10 2 1 := by
  have h := resolver_first_match ⟨1, 10, 1⟩ [⟨"5", "", 3, 3, 3⟩] [⟨"2", "", 4, 4, 4⟩]
    ⟨"1,2", "04:00:00-06:00:00", 9, 0, 2⟩ ⟨2, 18000, 0⟩
    (by intro o' ho'; simp at ho'; subst ho'; decide) (by decide)
  simpa using h

/-- C6 counterexample: the claim quantifies over *every* override list, but
an earlier override with a matching weekday and an unparseable hour range
(`"aa:00:00-06:00:00"`) makes the resolver return the *base* limits even
though the time matches exactly one override's (the second's) window, so
the matching override's limits are not returned. -/
theorem resolver_first_match_cex :
    overrideApplies ⟨1, 18000, 0⟩ ⟨"1", "aa:00:00-06:00:00", 7, 7, 7⟩ = false
    ∧ overrideApplies ⟨1, 18000, 0⟩ ⟨"1", "04:00:00-06:00:00", 9, 9, 9⟩ = true
    ∧ getMIGScalingLimits ⟨1, 10, 1⟩
        [⟨"1", "aa:00:00-06:00:00", 7, 7, 7⟩, ⟨"1", "04:00:00-06:00:00", 9, 9, 9⟩]
        ⟨1, 18000, 0⟩ = .ok 1 10 1 1
    ∧ getMIGScalingLimits ⟨1, 10, 1⟩
        [⟨"1", "aa:00:00-06:00:00", 7, 7, 7⟩, ⟨"1", "04:00:00-06:00:00", 9, 9, 9⟩]
        ⟨1, 18000, 0⟩ ≠ .ok 9 9 9 1 := by
  refine ⟨by decide, by decide, by decide, ?_⟩
  intro h
  have h1 : getMIGScalingLimits ⟨1, 10, 1⟩
      [⟨"1", "aa:00:00-06:00:00", 7, 7, 7⟩, ⟨"1", "04:00:00-06:00:00", 9, 9, 9⟩]
      ⟨1, 18000, 0⟩ = .ok 1 10 1 1 := by decide
  rw [h1] at h
  cases h

/-! ## Claim C9: the override hour window excludes both endpoints -/

/-- C9 (amended): the hour window is *open at both ends*, not half-open:
for an override whose weekday matches and whose hour range parses to
`[startSec, endSec]`, a current UTC time exactly equal to the window's
start instant is NOT contained (the resolver falls through past the
override), a time strictly between the endpoints selects the override's
(inherited) limits, and a time equal to the end is likewise not
contained. -/
theorem hourWindow_excludes_both_endpoints (base : AutoscalerBase)
    (o : ScalingOverride) (rest : List ScalingOverride) (t : TimeUTC)
    (sh eh : String) (startSec endSec : Nat)
    (hd : dayMatches o t = true)
    (hsplit : goSplit '-' o.hoursUTC = [sh, eh])
    (hs : parseClock sh = some startSec)
    (he : parseClock eh = some endSec) :
    (t.secOfDay = startSec ∧ t.nanos = 0 →
      getMIGScalingLimits base (o :: rest) t = getMIGScalingLimits base rest t)
    ∧ (startSec * 1000000000 < t.secOfDay * 1000000000 + t.nanos →
        t.secOfDay * 1000000000 + t.nanos < endSec * 1000000000 →
      getMIGScalingLimits base (o :: rest) t =
        .ok (if o.minSize = 0 then base.minSize else o.minSize)
          (if o.maxSize = 0 then base.maxSize else o.maxSize)
          (if o.scaleUpThreshold = 0 then base.scaleUpThreshold else o.scaleUpThreshold) 1)
    ∧ (t.secOfDay = endSec ∧ t.nanos = 0 →
      getMIGScalingLimits base (o :: rest) t = getMIGScalingLimits base rest t) := by
  have hstep := overrideStep_with_window base o t sh eh startSec endSec hd hsplit hs he
  refine ⟨?_, ?_, ?_⟩
  · rintro ⟨h1, h2⟩
    have hAfter : timeAfter t startSec = false := by
      simp [timeAfter, h1, h2]
    exact getMIGScalingLimits_cons_none base o rest t
      (by rw [hstep, hAfter, Bool.false_and, if_neg (by simp)])
  · intro h1 h2
    have hAfter : timeAfter t startSec = true := by simpa [timeAfter] using h1
    have hBefore : timeBefore t endSec = true := by simpa [timeBefore] using h2
    exact getMIGScalingLimits_cons_some base o rest t _
      (by rw [hstep, hAfter, hBefore]; simp)
  · rintro ⟨h1, h2⟩
    have hBefore : timeBefore t endSec = false := by
      simp [timeBefore, h1, h2]
    exact getMIGScalingLimits_cons_none base o rest t
      (by rw [hstep, hBefore, Bool.and_false, if_neg (by simp)])

/-- C9 witness: window `04:00:00-06:00:00` on weekday 2, instantiated at
`05:00:00` (strictly inside) and at the two endpoints. -/
theorem hourWindow_excludes_both_endpoints_witness :
    getMIGScalingLimits ⟨1, 10, 1⟩ [⟨"2", "04:00:00-06:00:00", 5, 8, 2⟩] ⟨2, 18000, 0⟩
      = .ok 5 8 2 1
    ∧ getMIGScalingLimits ⟨1, 10, 1⟩ [⟨"2", "04:00:00-06:00:00", 5, 8, 2⟩] ⟨2, 14400, 0⟩
      = getMIGScalingLimits ⟨1, 10, 1⟩ [] ⟨2, 14400, 0⟩
    ∧ getMIGScalingLimits ⟨1, 10, 1⟩ [⟨"2", "04:00:00-06:00:00", 5, 8, 2⟩] ⟨2, 21600, 0⟩
      = getMIGScalingLimits ⟨1, 10, 1⟩ [] ⟨2, 21600, 0⟩ := by
  refine ⟨?_, ?_, ?_⟩
  · have h := (hourWindow_excludes_both_endpoints ⟨1, 10, 1⟩
      ⟨"2", "04:00:00-06:00:00", 5, 8, 2⟩ [] ⟨2, 18000, 0⟩
      "04:00:00" "06:00:00" 14400 21600 (by decide) (by decide) (by decide)
      (by decide)).2.1 (by decide) (by decide)
    simpa using h
  · exact (hourWindow_excludes_both_endpoints ⟨1, 10, 1⟩
      ⟨"2", "04:00:00-06:00:00", 5, 8, 2⟩ [] ⟨2, 14400, 0⟩
      "04:00:00" "06:00:00" 14400 21600 (by decide) (by decide) (by decide)
      (by decide)).1 (by decide)
  · exact (hourWindow_excludes_both_endpoints ⟨1, 10, 1⟩
      ⟨"2", "04:00:00-06:00:00", 5, 8, 2⟩ [] ⟨2, 21600, 0⟩
      "04:00:00" "06:00:00" 14400 21600 (by decide) (by decide) (by decide)
      (by decide)).2.2 (by decide)

/-- C9 counterexample: with window `04:00:00-06:00:00` on a matching
weekday, a current time exactly equal to the window's start instant
(`04:00:00.000000000`) does NOT select the override — the resolver
returns the base limits — contradicting the claimed half-open
containment of the start instant. -/
theorem hourWindow_start_not_contained_cex :
    dayMatches ⟨"2", "04:00:00-06:00:00", 5, 8, 2⟩ ⟨2, 14400, 0⟩ = true
    ∧ parseClock "04:00:00" = some 14400
    ∧ goSplit '-' "04:00:00-06:00:00" = ["04:00:00", "06:00:00"]
    ∧ getMIGScalingLimits ⟨1, 10, 1⟩ [⟨"2", "04:00:00-06:00:00", 5, 8, 2⟩] ⟨2, 14400, 0⟩
        = .ok 1 10 1 1
    ∧ getMIGScalingLimits ⟨1, 10, 1⟩ [⟨"2", "04:00:00-06:00:00", 5, 8, 2⟩] ⟨2, 14400, 0⟩
        ≠ .ok 5 8 2 1 := by
  refine ⟨by decide, by decide, by decide, by decide, ?_⟩
  intro h
  have h1 : getMIGScalingLimits ⟨1, 10, 1⟩ [⟨"2", "04:00:00-06:00:00", 5, 8, 2⟩]
      ⟨2, 14400, 0⟩ = .ok 1 10 1 1 := by decide
  rw [h1] at h
  cases h

/-! ## Claim C7: capacity limits are no-ops, not errors -/

/-- C7. With effective limits `(minS, maxS, sut, sdt)`: when
`targetSize + scaleUpThreshold` exceeds `maxSize`, `AddNodeToMIG` returns
the `(-1, -1)` sentinel with a nil error and its only API call is the
size read — no resize is issued; when `targetSize - scaleDownThreshold`
falls below `minSize`, `RemoveNodeFromMIG` returns the `(-1, -1, "")`
sentinel with a nil error, leaves the cluster state untouched and issues
no drain, resize or deletion. -/
theorem capacity_limit_is_noop (debugMode : Bool) (base : AutoscalerBase)
    (overrides : List ScalingOverride) (t : TimeUTC) (env : MIGEnv)
    (esConfigured : Bool) (webhookURL : String) (polls : Nat → List ShardInfo)
    (maxPolls : Nat) (st : ESState) (minS maxS sut sdt : Int)
    (hl : getMIGScalingLimits base overrides t = .ok minS maxS sut sdt) :
    (maxS < env.targetSize + sut →
      AddNodeToMIG debugMode base overrides t env = (.ok (-1) (-1), [.getTargetSize]))
    ∧ (env.targetSize - sdt < minS →
      RemoveNodeFromMIG debugMode base overrides t env esConfigured webhookURL
          polls maxPolls st
        = (.ok (-1) (-1) "", st, [.getTargetSize])) := by
  constructor
  · intro h
    unfold AddNodeToMIG
    rw [hl]
    simp only [if_pos h]
  · intro h
    unfold RemoveNodeFromMIG
    rw [hl]
    simp only [if_pos h]

/-- C7 witness: a group of size 3 with `maxSize 3` refuses to grow, and a
group of size 2 with `minSize 2` refuses to shrink, both with nil errors
and no further API calls. -/
theorem capacity_limit_is_noop_witness :
    AddNodeToMIG false ⟨1, 3, 1⟩ [] ⟨0, 0, 0⟩ ⟨3, [], 0⟩
      = (.ok (-1) (-1), [.getTargetSize])
    ∧ RemoveNodeFromMIG false ⟨2, 10, 1⟩ [] ⟨0, 0, 0⟩ ⟨2, [], 0⟩ true ""
        (fun _ => []) 2 ⟨""⟩
      = (.ok (-1) (-1) "", ⟨""⟩, [.getTargetSize]) :=
  ⟨(capacity_limit_is_noop false ⟨1, 3, 1⟩ [] ⟨0, 0, 0⟩ ⟨3, [], 0⟩ true ""
      (fun _ => []) 2 ⟨""⟩ 1 3 1 1 rfl).1 (by decide),
   (capacity_limit_is_noop false ⟨2, 10, 1⟩ [] ⟨0, 0, 0⟩ ⟨2, [], 0⟩ true ""
      (fun _ => []) 2 ⟨""⟩ 2 10 1 1 rfl).2 (by decide)⟩

/-! ## Claim C8: idempotence of the exclusion-update step -/

/-- Appending one comma-free name after a comma adds one piece. -/
theorem goSplit_append_comma (ex name : String) (hfree : ',' ∉ name.data) :
    goSplit ',' (ex ++ "," ++ name) = goSplit ',' ex ++ [name] := by
  have hdata : (ex ++ "," ++ name).data = ex.data ++ ',' :: name.data := by
    simp
  simp only [goSplit, hdata, splitChar_append_cons, List.map_append,
    splitChar_of_no_sep ',' name.data hfree, List.map_cons, List.map_nil]

/-- In debug mode the step never changes the cluster state. -/
theorem updateClusterSettings_state_debug (nodeName : String) (st : ESState) :
    (updateClusterSettings true nodeName st).2.1 = st := by
  by_cases hc : (decide (st.excludes ≠ "")
      && (goSplit ',' st.excludes).contains nodeName) = true
  · unfold updateClusterSettings
    rw [if_pos hc]
  · unfold updateClusterSettings
    rw [if_neg hc]
    rfl

/-- C8 (amended): for victim names that contain no comma — true of every
GCE instance name — the exclusion-update step is idempotent: when the
victim is already among the comma-separated excluded names the step
returns success having issued only the settings read (no write), and
applying the step twice yields the same exclusion list as applying it
once. -/
theorem exclusion_update_idempotent (debugMode : Bool) (nodeName : String)
    (st : ESState) (hfree : ',' ∉ nodeName.data) :
    (st.excludes ≠ "" → nodeName ∈ goSplit ',' st.excludes →
      updateClusterSettings debugMode nodeName st = (.ok (), st, [.getSettings]))
    ∧ (updateClusterSettings debugMode nodeName
        (updateClusterSettings debugMode nodeName st).2.1).2.1
      = (updateClusterSettings debugMode nodeName st).2.1 := by
  have hpresent : ∀ s : ESState, s.excludes ≠ "" → nodeName ∈ goSplit ',' s.excludes →
      updateClusterSettings debugMode nodeName s = (.ok (), s, [.getSettings]) := by
    intro s hne hmem
    have hc : (decide (s.excludes ≠ "") && (goSplit ',' s.excludes).contains nodeName)
        = true := by
      rw [Bool.and_eq_true, decide_eq_true_iff]
      exact ⟨hne, List.elem_iff.mpr hmem⟩
    unfold updateClusterSettings
    rw [if_pos hc]
  refine ⟨hpresent st, ?_⟩
  cases debugMode with
  | true => rw [updateClusterSettings_state_debug, updateClusterSettings_state_debug]
  | false =>
    by_cases hc : (decide (st.excludes ≠ "")
        && (goSplit ',' st.excludes).contains nodeName) = true
    · have h1 : updateClusterSettings false nodeName st = (.ok (), st, [.getSettings]) := by
        unfold updateClusterSettings
        rw [if_pos hc]
      rw [h1]
      rw [h1]
    · have h1 : (updateClusterSettings false nodeName st).2.1
          = ⟨if st.excludes ≠ "" then st.excludes ++ "," ++ nodeName else nodeName⟩ := by
        unfold updateClusterSettings
        rw [if_neg (by simpa using hc)]
        rfl
      rw [h1]
      by_cases hex : st.excludes = ""
      · rw [if_neg (by simp [hex])]
        by_cases hnn : nodeName = ""
        · subst hnn
          have h2 : updateClusterSettings false "" (⟨""⟩ : ESState)
              = (.ok (), ⟨""⟩, [.getSettings, .putSettings (some "")]) := by
            unfold updateClusterSettings
            rw [if_neg (by simp)]
            rfl
          rw [h2]
        · have hmem : nodeName ∈ goSplit ',' (ESState.mk nodeName).excludes := by
            have hsp : goSplit ',' nodeName = [nodeName] := by
              simp only [goSplit, splitChar_of_no_sep ',' nodeName.data hfree,
                List.map_cons, List.map_nil]
            show nodeName ∈ goSplit ',' nodeName
            rw [hsp]
            simp
          rw [hpresent ⟨nodeName⟩ hnn hmem]
      · rw [if_pos hex]
        have hdata : (st.excludes ++ "," ++ nodeName).data
            = st.excludes.data ++ ',' :: nodeName.data := by simp
        have hne2 : (st.excludes ++ "," ++ nodeName) ≠ "" := by
          intro h0
          rw [h0] at hdata
          have : st.excludes.data ++ ',' :: nodeName.data = [] := hdata.symm
          simp at this
        have hmem : nodeName ∈ goSplit ','
            (ESState.mk (st.excludes ++ "," ++ nodeName)).excludes := by
          show nodeName ∈ goSplit ',' (st.excludes ++ "," ++ nodeName)
          rw [goSplit_append_comma st.excludes nodeName hfree]
          simp
        rw [hpresent ⟨st.excludes ++ "," ++ nodeName⟩ hne2 hmem]

/-- C8 witness: with the victim already excluded the step only reads, and
starting from an exclusion list without the victim, the second application
leaves the list exactly as the first left it. -/
theorem exclusion_update_idempotent_witness :
    updateClusterSettings false "node-1" ⟨"node-1,node-2"⟩
      = (.ok (), ⟨"node-1,node-2"⟩, [.getSettings])
    ∧ (updateClusterSettings false "node-1"
        (updateClusterSettings false "node-1" ⟨"node-3"⟩).2.1).2.1
      = (updateClusterSettings false "node-1" ⟨"node-3"⟩).2.1 :=
  ⟨(exclusion_update_idempotent false "node-1" ⟨"node-1,node-2"⟩ (by decide)).1
      (by decide) (by decide),
   (exclusion_update_idempotent false "node-1" ⟨"node-3"⟩ (by decide)).2⟩

/-- C8 counterexample: the claim quantifies over every victim name, but
for a name containing a comma (`"a,b"`) the comma-joined encoding cannot
represent it: starting from an empty exclusion list, one application
leaves `"a,b"` and a second application leaves `"a,b,a,b"` — applying the
step twice does not equal applying it once. -/
theorem exclusion_update_not_idempotent_cex :
    (updateClusterSettings false "a,b" ⟨""⟩).2.1 = ⟨"a,b"⟩
    ∧ (updateClusterSettings false "a,b"
        (updateClusterSettings false "a,b" ⟨""⟩).2.1).2.1 = ⟨"a,b,a,b"⟩
    ∧ (updateClusterSettings false "a,b"
        (updateClusterSettings false "a,b" ⟨""⟩).2.1).2.1
      ≠ (updateClusterSettings false "a,b" ⟨""⟩).2.1 := by
  refine ⟨by decide, by decide, by decide⟩

/-! ## Claim C5: index-group resolution and filtering -/

theorem globMatchL_star (s : List Char) : globMatchL ['*'] s = true := by
  induction s with
  | nil => simp [globMatchL]
  | cons c cs ih => simp [globMatchL, ih]

theorem globMatchL_dot_star (name : List Char) :
    globMatchL ['.', '*'] name = listStartsWith ['.'] name := by
  cases name with
  | nil => simp [globMatchL, listStartsWith]
  | cons c cs => simp [globMatchL, globMatchL_star, listStartsWith]

theorem globMatchL_dot_head (ps name : List Char)
    (h : globMatchL ('.' :: ps) name = true) :
    listStartsWith ['.'] name = true := by
  cases name with
  | nil =>
    rw [show globMatchL ('.' :: ps) [] = false from by simp [globMatchL]] at h
    cases h
  | cons c cs =>
    rw [show globMatchL ('.' :: ps) (c :: cs) = ('.' == c && globMatchL ps cs)
      from by simp [globMatchL]] at h
    rw [Bool.and_eq_true] at h
    show ('.' == c && listStartsWith [] cs) = true
    rw [h.1]
    rfl

/-- C5 (amended): the *name-pattern* mode (`filterIndices`) admits only
indices with open status and filters system indices by the
`includeSystem` flag — a pattern starting with `.` matches no index when
`includeSystem` is false, and the pattern `".*"` with `includeSystem`
true yields exactly the open system indices — whereas the
alias-resolution path applies no status filter at all (see the
counterexample). -/
theorem filterIndices_meets_spec (indices : List IndexInfo)
    (patterns : List String) (includeSystem : Bool) (rest : List Char) :
    (∀ i ∈ filterIndices indices patterns includeSystem, i.status = "open")
    ∧ (∀ i ∈ filterIndices indices patterns false,
        listStartsWith ['.'] i.index.data = false)
    ∧ filterIndices indices [String.mk ('.' :: rest)] false = []
    ∧ filterIndices indices [".*"] true
      = indices.filter (fun i => i.status == "open"
          && listStartsWith ['.'] i.index.data) := by
  refine ⟨?_, ?_, ?_, ?_⟩
  · intro i hi
    have h := List.of_mem_filter hi
    simp only [Bool.and_eq_true, beq_iff_eq] at h
    exact h.1.1
  · intro i hi
    have h := List.of_mem_filter hi
    simp only [Bool.and_eq_true, Bool.or_eq_true, Bool.not_eq_true'] at h
    rcases h.1.2 with h2 | h2
    · cases h2
    · exact h2
  · rw [filterIndices, List.filter_eq_nil_iff]
    intro i _ hpred
    simp only [Bool.and_eq_true] at hpred
    obtain ⟨⟨_, hsys⟩, hpat⟩ := hpred
    simp only [Bool.or_eq_true, Bool.not_eq_true'] at hsys
    rcases hsys with h2 | h2
    · cases h2
    · rcases (Bool.or_eq_true _ _).mp hpat with h3 | h3
      · rw [List.isEmpty_cons] at h3
        cases h3
      · simp only [List.any_cons, List.any_nil, Bool.or_false] at h3
        have h4 : globMatchL ('.' :: rest) i.index.data = true := h3
        rw [globMatchL_dot_head rest i.index.data h4] at h2
        cases h2
  · rw [filterIndices]
    refine List.filter_congr ?_
    intro i _
    show (i.status == "open" && (true || _) && _) = _
    rw [Bool.true_or, Bool.and_true]
    have : (([".*"] : List String).isEmpty
        || [".*"].any (fun p => globMatch p i.index)) = listStartsWith ['.'] i.index.data := by
      simp only [List.isEmpty_cons, List.any_cons, List.any_nil, Bool.or_false,
        Bool.false_or, globMatch]
      exact globMatchL_dot_star i.index.data
    rw [this]

/-- C5 witness: the theorem instantiated at the test table of
`TestFilterIndices`. -/
theorem filterIndices_meets_spec_witness :
    filterIndices [⟨"", "open", "logs-2024-01", "1", "1", "", ""⟩,
        ⟨"", "open", ".kibana", "1", "1", "", ""⟩,
        ⟨"", "open", ".security", "1", "0", "", ""⟩,
        ⟨"", "close", "closed-index", "1", "1", "", ""⟩]
      [String.mk ('.' :: ['*'])] false = []
    ∧ filterIndices [⟨"", "open", "logs-2024-01", "1", "1", "", ""⟩,
        ⟨"", "open", ".kibana", "1", "1", "", ""⟩,
        ⟨"", "open", ".security", "1", "0", "", ""⟩,
        ⟨"", "close", "closed-index", "1", "1", "", ""⟩] [".*"] true
      = [⟨"", "open", ".kibana", "1", "1", "", ""⟩,
        ⟨"", "open", ".security", "1", "0", "", ""⟩] := by
  have h := filterIndices_meets_spec [⟨"", "open", "logs-2024-01", "1", "1", "", ""⟩,
      ⟨"", "open", ".kibana", "1", "1", "", ""⟩,
      ⟨"", "open", ".security", "1", "0", "", ""⟩,
      ⟨"", "close", "closed-index", "1", "1", "", ""⟩] [".*"] true ['*']
  exact ⟨h.2.2.1, h.2.2.2.trans (by decide)⟩

/-- A server whose alias `logs-alias` points at a *closed* index that
still reports one primary shard hosted on one node. -/
def esEnvClosedIdx : ESEnv :=
  ⟨fun _ => [⟨"logs-alias", "closed-index"⟩],
   fun _ => [⟨"red", "close", "closed-index", "1", "0", "0", "0"⟩],
   fun _ => [⟨"closed-index", "0", "p", "STARTED", "0", "0", "", "ip1", "node-a"⟩]⟩

/-- C5 counterexample: the alias-resolution path performs no status
filtering — an alias resolving to a closed index admits it into the
rebalance group, and `RebalanceShards` even issues a replica update
against the closed index — contradicting "only indices with open status
are eligible; closed indices are always excluded" for the alias mode. -/
theorem alias_resolution_admits_closed_cex :
    ((getIndicesForAliases esEnvClosedIdx ["logs-alias"]).1).map
        (fun i => (i.index, i.status))
      = [("closed-index", "close")]
    ∧ (RebalanceShards false esEnvClosedIdx ["logs-alias"] 0 1).2.contains
        (.putIndexSettings "closed-index" 1) = true := by
  refine ⟨by decide, by decide⟩

/-! ## Claim C4: dry-run mode -/

/-- In debug mode the exclusion update only reads the settings. -/
theorem updateClusterSettings_debug (nodeName : String) (st : ESState) :
    updateClusterSettings true nodeName st = (.ok (), st, [.getSettings]) := by
  by_cases hc : (decide (st.excludes ≠ "")
      && (goSplit ',' st.excludes).contains nodeName) = true
  · unfold updateClusterSettings
    rw [if_pos hc]
  · unfold updateClusterSettings
    rw [if_neg hc]
    rfl

/-- In debug mode the exclusion clear only reads the settings. -/
theorem clearClusterSettings_debug (nodeName : String) (st : ESState) :
    ClearElasticsearchClusterSettings true nodeName st = (.ok (), st, [.getSettings]) := by
  by_cases hex : st.excludes = ""
  · unfold ClearElasticsearchClusterSettings
    rw [if_pos hex]
  · unfold ClearElasticsearchClusterSettings
    rw [if_neg hex]
    rfl

/-- In debug mode the drain excludes nothing and skips the evacuation wait
entirely: the only call issued is the settings read. -/
theorem drainElasticsearchNode_debug (webhookURL nodeName : String)
    (polls : Nat → List ShardInfo) (maxPolls : Nat) (st : ESState) :
    DrainElasticsearchNode true webhookURL nodeName polls maxPolls st
      = (.ok (), st, [.getSettings]) := by
  unfold DrainElasticsearchNode
  rw [updateClusterSettings_debug]
  rfl

/-- In debug mode the effect component of the fold inside
`RebalanceShards` never grows. -/
theorem rebalance_fold_fx_debug (desired : Int) (l : List IndexInfo)
    (acc : Int × List Effect) :
    (l.foldl (fun (acc : Int × List Effect) (idx : IndexInfo) =>
      match goAtoi idx.rep with
      | none => acc
      | some currentReplicas =>
        if currentReplicas = desired then acc
        else
          match updateIndexReplicas true idx.index desired with
          | (.error _, fx) => (acc.1, acc.2 ++ fx)
          | (.ok _, fx) => (acc.1 + 1, acc.2 ++ fx)) acc).2 = acc.2 := by
  induction l generalizing acc with
  | nil => rfl
  | cons idx rest ih =>
    rw [List.foldl_cons, ih]
    cases goAtoi idx.rep with
    | none => rfl
    | some currentReplicas =>
      by_cases hc : currentReplicas = desired
      · simp [hc]
      · simp [hc, updateIndexReplicas]

/-- C4 (amended): in dry-run (debug) mode every mutating call — the MIG
resize, the instance deletion, both cluster-settings PUTs and the
index-replica PUT — is skipped, in every operation and on every input;
however (see the counterexample) the drain's read-only evacuation polling
and the 90-second settle wait are skipped *entirely* in dry-run, so the
read-only query sequence is not identical to normal mode. -/
theorem dryRun_skips_every_mutation (base : AutoscalerBase)
    (overrides : List ScalingOverride) (t : TimeUTC) (env : MIGEnv)
    (esConfigured : Bool) (webhookURL nodeName indexName : String)
    (polls : Nat → List ShardInfo) (maxPolls : Nat) (st : ESState)
    (esEnv : ESEnv) (aliases : List String) (maxReplicas minReplicas replicas : Int) :
    (AddNodeToMIG true base overrides t env).2.all (fun e => !e.isMutating) = true
    ∧ (RemoveNodeFromMIG true base overrides t env esConfigured webhookURL
        polls maxPolls st).2.2.all (fun e => !e.isMutating) = true
    ∧ (DrainElasticsearchNode true webhookURL nodeName polls maxPolls st).2.2.all
        (fun e => !e.isMutating) = true
    ∧ (updateClusterSettings true nodeName st).2.2.all
        (fun e => !e.isMutating) = true
    ∧ (ClearElasticsearchClusterSettings true nodeName st).2.2.all
        (fun e => !e.isMutating) = true
    ∧ (updateIndexReplicas true indexName replicas).2.all
        (fun e => !e.isMutating) = true
    ∧ (RebalanceShards true esEnv aliases maxReplicas minReplicas).2.all
        (fun e => !e.isMutating) = true := by
  refine ⟨?_, ?_, ?_, ?_, ?_, ?_, ?_⟩
  · unfold AddNodeToMIG
    cases getMIGScalingLimits base overrides t with
    | fatal m => rfl
    | ok minS maxS sut sdt =>
      by_cases h : maxS < env.targetSize + sut
      · simp [h, Effect.isMutating]
      · simp [h, Effect.isMutating]
  · unfold RemoveNodeFromMIG
    cases getMIGScalingLimits base overrides t with
    | fatal m => rfl
    | ok minS maxS sut sdt =>
      by_cases h : env.targetSize - sdt < minS
      · simp [h, Effect.isMutating]
      · by_cases hlen : env.instanceURLs.length = 0
        · have hG : GetInstanceToRemove env
              = (.error "no instances found in the MIG", [.listInstances]) := by
            unfold GetInstanceToRemove
            rw [if_pos hlen]
          simp [h, hG, Effect.isMutating]
        · have hG : GetInstanceToRemove env
              = (.ok (selectedVictim env), [.listInstances]) := by
            unfold GetInstanceToRemove
            rw [if_neg hlen]
          cases esConfigured with
          | false => simp [h, hG, Effect.isMutating]
          | true =>
            simp [h, hG, drainElasticsearchNode_debug, clearClusterSettings_debug,
              Effect.isMutating]
  · rw [drainElasticsearchNode_debug]
    rfl
  · rw [updateClusterSettings_debug]
    rfl
  · rw [clearClusterSettings_debug]
    rfl
  · rfl
  · have hfx1 : (getIndicesForAliases esEnv aliases).2.all
        (fun e => !e.isMutating) = true := by
      unfold getIndicesForAliases
      dsimp only
      split_ifs <;> rfl
    have hfx2 : (getNodeCountForIndices esEnv
        ((getIndicesForAliases esEnv aliases).1.map (fun idx => idx.index))).2.all
        (fun e => !e.isMutating) = true := by
      unfold getNodeCountForIndices
      dsimp only
      split_ifs <;> rfl
    unfold RebalanceShards
    by_cases hf : (getIndicesForAliases esEnv aliases).1.length = 0
    · simp only [hf, if_true]
      exact hfx1
    · simp only [hf, if_false]
      rw [rebalance_fold_fx_debug, List.all_append, hfx1, hfx2]
      rfl

/-- C4 counterexample: the claim says every read-only query still runs
exactly as in normal mode, but with the same server behaviour (no shards
anywhere) the dry-run drain issues only the settings read while normal
mode also issues the `_cat/shards` poll: the read-only traces differ. -/
theorem dryRun_not_readonly_transparent_cex :
    ((DrainElasticsearchNode true "" "n" (fun _ => []) 1 ⟨""⟩).2.2.filter
        (fun e => e.isReadOnly)) = [.getSettings]
    ∧ ((DrainElasticsearchNode false "" "n" (fun _ => []) 1 ⟨""⟩).2.2.filter
        (fun e => e.isReadOnly)) = [.getSettings, .catShards]
    ∧ ((DrainElasticsearchNode true "" "n" (fun _ => []) 1 ⟨""⟩).2.2.filter
        (fun e => e.isReadOnly))
      ≠ ((DrainElasticsearchNode false "" "n" (fun _ => []) 1 ⟨""⟩).2.2.filter
        (fun e => e.isReadOnly)) := by
  refine ⟨by decide, by decide, by decide⟩

/-! ## Claim C1: drain timeout aborts the removal before any deletion -/

/-- The exclusion update never reports an error in this environment. -/
theorem updateClusterSettings_ok (d : Bool) (n : String) (st : ESState) :
    (updateClusterSettings d n st).1 = .ok () := by
  unfold updateClusterSettings
  dsimp only
  split_ifs <;> rfl

/-- The exclusion clear never reports an error in this environment. -/
theorem clearClusterSettings_ok (d : Bool) (n : String) (st : ESState) :
    (ClearElasticsearchClusterSettings d n st).1 = .ok () := by
  unfold ClearElasticsearchClusterSettings
  dsimp only
  split_ifs <;> rfl

/-- The exclusion update issues neither deletes nor resizes. -/
theorem updateClusterSettings_fx_safe (d : Bool) (n : String) (st : ESState) :
    (updateClusterSettings d n st).2.2.all
      (fun e => !e.isDelete && !e.isResize) = true := by
  unfold updateClusterSettings
  dsimp only
  split_ifs <;> rfl

/-- The exclusion clear issues neither deletes nor resizes. -/
theorem clearClusterSettings_fx_safe (d : Bool) (n : String) (st : ESState) :
    (ClearElasticsearchClusterSettings d n st).2.2.all
      (fun e => !e.isDelete && !e.isResize) = true := by
  unfold ClearElasticsearchClusterSettings
  dsimp only
  split_ifs <;> rfl

/-- The evacuation wait issues neither deletes nor resizes. -/
theorem waitLoop_fx_safe (d : Bool) (w n : String) (polls : Nat → List ShardInfo)
    (fuel i : Nat) (st : ESState) :
    (waitLoop d w n polls fuel i st).2.2.all
      (fun e => !e.isDelete && !e.isResize) = true := by
  induction fuel generalizing i with
  | zero =>
    unfold waitLoop
    dsimp only
    have hnotify : (if w ≠ "" then
        [Effect.notifySlack ("Timeout draining instance " ++ n ++ " in elasticsearch")]
        else []).all (fun e => !e.isDelete && !e.isResize) = true := by
      split_ifs <;> rfl
    cases hc : (ClearElasticsearchClusterSettings d n st).1 with
    | error e =>
      dsimp only
      rw [List.all_append, hnotify, clearClusterSettings_fx_safe]
      rfl
    | ok u =>
      dsimp only
      rw [List.all_append, hnotify, clearClusterSettings_fx_safe]
      rfl
  | succ fuel ih =>
    unfold waitLoop
    dsimp only
    split_ifs with hf
    · rfl
    · show (Effect.catShards :: (waitLoop d w n polls fuel (i + 1) st).2.2).all _ = true
      rw [List.all_cons, ih]
      rfl

/-- The drain issues neither deletes nor resizes: its trace consists of
settings reads and writes, shard polls and notifications only. -/
theorem drain_fx_safe (d : Bool) (w n : String) (polls : Nat → List ShardInfo)
    (mp : Nat) (st : ESState) :
    (DrainElasticsearchNode d w n polls mp st).2.2.all
      (fun e => !e.isDelete && !e.isResize) = true := by
  unfold DrainElasticsearchNode
  rcases hU : updateClusterSettings d n st with ⟨r, st1, fx1⟩
  have hr : r = .ok () := by
    have h := updateClusterSettings_ok d n st
    rw [hU] at h
    exact h
  subst hr
  have hfx1 : fx1.all (fun e => !e.isDelete && !e.isResize) = true := by
    have h := updateClusterSettings_fx_safe d n st
    rw [hU] at h
    exact h
  cases d with
  | true => exact hfx1
  | false =>
    show ((match waitForNodeRemoval false w n polls mp st1 with
      | (.error e, st2, fx2) =>
        (Except.error ("failed while waiting for node removal: " ++ e), st2, fx1 ++ fx2)
      | (.ok _, st2, fx2) => (Except.ok (), st2, fx1 ++ fx2)).2.2).all _ = true
    rcases hW : waitForNodeRemoval false w n polls mp st1 with ⟨rw_, st2, fx2⟩
    have hfx2 : fx2.all (fun e => !e.isDelete && !e.isResize) = true := by
      have h := waitLoop_fx_safe false w n polls mp 0 st1
      rw [show waitLoop false w n polls mp 0 st1
          = waitForNodeRemoval false w n polls mp st1 from rfl, hW] at h
      exact h
    cases rw_ with
    | error e =>
      dsimp only
      rw [List.all_append, hfx1, hfx2]
      rfl
    | ok u =>
      dsimp only
      rw [List.all_append, hfx1, hfx2]
      rfl

/-- When the evacuation wait fails, the resulting cluster state is the one
the timeout branch's rollback (the exclusion clear) produced. -/
theorem waitLoop_error_state (d : Bool) (w n : String) (polls : Nat → List ShardInfo)
    (fuel i : Nat) (st : ESState) (e : String)
    (h : (waitLoop d w n polls fuel i st).1 = .error e) :
    (waitLoop d w n polls fuel i st).2.1
      = (ClearElasticsearchClusterSettings d n st).2.1 := by
  induction fuel generalizing i with
  | zero =>
    unfold waitLoop
    dsimp only
    cases hc : (ClearElasticsearchClusterSettings d n st).1 with
    | error e2 => rfl
    | ok u => rfl
  | succ fuel ih =>
    unfold waitLoop at h ⊢
    dsimp only at h ⊢
    by_cases hf : (!((polls i).any (fun sh => nodeNameMatches n sh.node))) = true
    · rw [if_pos hf] at h
      exact absurd h (by simp)
    · rw [if_neg hf] at h ⊢
      exact ih (i + 1) h

/-- A failed drain has rolled the exclusion back: the victim is no longer
among the comma-separated excluded names. -/
theorem clear_removes (n : String) (st : ESState) (hn : n ≠ "") :
    n ∉ goSplit ',' ((ClearElasticsearchClusterSettings false n st).2.1).excludes := by
  unfold ClearElasticsearchClusterSettings
  dsimp only
  by_cases hex : st.excludes = ""
  · rw [if_pos hex]
    intro hmem
    rw [show ((Except.ok (), st, [Effect.getSettings]) :
        Except String Unit × ESState × List Effect).2.1 = st from rfl, hex] at hmem
    have : goSplit ',' "" = [""] := rfl
    rw [this] at hmem
    simp at hmem
    exact hn hmem
  · rw [if_neg hex]
    by_cases hrem : 0 < ((goSplit ',' st.excludes).filter (fun x => x ≠ n)).length
    · rw [if_pos hrem]
      intro hmem
      have hmem2 : n ∈ goSplit ',' (goJoin ","
          ((goSplit ',' st.excludes).filter (fun x => x ≠ n))) := hmem
      have hpieces : ∀ p ∈ (goSplit ',' st.excludes).filter (fun x => x ≠ n),
          ',' ∉ p.data := by
        intro p hp
        have hp' : p ∈ goSplit ',' st.excludes := List.mem_of_mem_filter hp
        simp only [goSplit, List.mem_map] at hp'
        obtain ⟨l, hl, hlp⟩ := hp'
        rw [← hlp]
        exact splitChar_no_sep ',' st.excludes.data l hl
      have hne : (goSplit ',' st.excludes).filter (fun x => x ≠ n) ≠ [] := by
        intro h0
        rw [h0] at hrem
        simp at hrem
      have hroundtrip : goSplit ','
          (goJoin "," ((goSplit ',' st.excludes).filter (fun x => x ≠ n)))
          = (goSplit ',' st.excludes).filter (fun x => x ≠ n) := by
        have hcomma : ("," : String) = String.mk [','] := rfl
        rw [hcomma]
        exact goSplit_goJoin ',' _ hne hpieces
      rw [hroundtrip] at hmem2
      have := List.of_mem_filter hmem2
      simp at this
    · rw [if_neg hrem]
      intro hmem
      have hmem2 : n ∈ goSplit ',' "" := hmem
      have hsp : goSplit ',' "" = [""] := rfl
      rw [hsp] at hmem2
      simp at hmem2
      exact hn hmem2

/-- A drain that reports an error leaves the cluster in the rolled-back
state: the victim's name is not in the exclusion list. -/
theorem drain_error_rolls_back (d : Bool) (w n : String)
    (polls : Nat → List ShardInfo) (mp : Nat) (st : ESState) (e : String)
    (h : (DrainElasticsearchNode d w n polls mp st).1 = .error e) (hn : n ≠ "") :
    n ∉ goSplit ',' ((DrainElasticsearchNode d w n polls mp st).2.1).excludes := by
  cases d with
  | true =>
    rw [drainElasticsearchNode_debug] at h
    cases h
  | false =>
    unfold DrainElasticsearchNode at h ⊢
    rcases hU : updateClusterSettings false n st with ⟨r, st1, fx1⟩
    have hr : r = .ok () := by
      have h2 := updateClusterSettings_ok false n st
      rw [hU] at h2
      exact h2
    subst hr
    rw [hU] at h
    dsimp only at h ⊢
    rcases hW : waitForNodeRemoval false w n polls mp st1 with ⟨rw_, st2, fx2⟩
    rw [hW] at h
    cases rw_ with
    | ok u => exact absurd h (by simp)
    | error e2 =>
      dsimp only
      have hstate : st2 = (ClearElasticsearchClusterSettings false n st1).2.1 := by
        have h3 := waitLoop_error_state false w n polls mp 0 st1 e2
          (by rw [show waitLoop false w n polls mp 0 st1
              = waitForNodeRemoval false w n polls mp st1 from rfl, hW])
        rw [show waitLoop false w n polls mp 0 st1
            = waitForNodeRemoval false w n polls mp st1 from rfl, hW] at h3
        exact h3
      rw [hstate]
      exact clear_removes n st1 hn

/-- C1. In any iteration that reaches the drain (limits resolved, floor
not hit, a victim selected) and in which `DrainElasticsearchNode` returns
an error, `RemoveNodeFromMIG` returns that failure immediately: its result
is the drain error, its trace is exactly the size read, the instance
listing and the drain's own calls — containing no `DeleteInstances` and
no resize — and the victim's name has been rolled back out of the cluster
exclusion list. -/
theorem drain_failure_blocks_removal (debugMode : Bool) (base : AutoscalerBase)
    (overrides : List ScalingOverride) (t : TimeUTC) (env : MIGEnv)
    (webhookURL : String) (polls : Nat → List ShardInfo) (maxPolls : Nat)
    (st : ESState) (minS maxS sut sdt : Int) (e : String)
    (hl : getMIGScalingLimits base overrides t = .ok minS maxS sut sdt)
    (hfloor : ¬ (env.targetSize - sdt < minS))
    (hgrp : ¬ (env.instanceURLs.length = 0))
    (hdrain : (DrainElasticsearchNode debugMode webhookURL (selectedVictim env)
        polls maxPolls st).1 = .error e) :
    RemoveNodeFromMIG debugMode base overrides t env true webhookURL polls maxPolls st
      = (.err ("error draining Elasticsearch node: " ++ e),
          (DrainElasticsearchNode debugMode webhookURL (selectedVictim env)
            polls maxPolls st).2.1,
          .getTargetSize :: .listInstances ::
            (DrainElasticsearchNode debugMode webhookURL (selectedVictim env)
              polls maxPolls st).2.2)
    ∧ (RemoveNodeFromMIG debugMode base overrides t env true webhookURL polls
          maxPolls st).2.2.all (fun ef => !ef.isDelete && !ef.isResize) = true
    ∧ (selectedVictim env ≠ "" →
        selectedVictim env ∉ goSplit ','
          ((RemoveNodeFromMIG debugMode base overrides t env true webhookURL polls
            maxPolls st).2.1).excludes) := by
  have hG : GetInstanceToRemove env = (.ok (selectedVictim env), [.listInstances]) := by
    unfold GetInstanceToRemove
    rw [if_neg hgrp]
  have hR : RemoveNodeFromMIG debugMode base overrides t env true webhookURL polls
      maxPolls st
      = (.err ("error draining Elasticsearch node: " ++ e),
          (DrainElasticsearchNode debugMode webhookURL (selectedVictim env)
            polls maxPolls st).2.1,
          .getTargetSize :: .listInstances ::
            (DrainElasticsearchNode debugMode webhookURL (selectedVictim env)
              polls maxPolls st).2.2) := by
    unfold RemoveNodeFromMIG
    rw [hl]
    dsimp only
    rw [if_neg hfloor, hG]
    dsimp only
    rcases hD : DrainElasticsearchNode debugMode webhookURL (selectedVictim env)
        polls maxPolls st with ⟨r, st1, dfx⟩
    rw [hD] at hdrain
    have hr : r = .error e := hdrain
    subst hr
    rfl
  refine ⟨hR, ?_, ?_⟩
  · rw [hR]
    show (Effect.getTargetSize :: Effect.listInstances ::
        (DrainElasticsearchNode debugMode webhookURL (selectedVictim env)
          polls maxPolls st).2.2).all _ = true
    rw [List.all_cons, List.all_cons, drain_fx_safe]
    rfl
  · intro hv
    rw [hR]
    exact drain_error_rolls_back debugMode webhookURL (selectedVictim env)
      polls maxPolls st e hdrain hv

/-- C1 witness: a group of three instances, victim `node-1`, a shard feed
that always reports a shard on the victim, a two-poll deadline and an
initially empty exclusion list: the drain times out, the removal returns
the drain failure, its trace has no delete and no resize, and `node-1` is
no longer excluded. -/
theorem drain_failure_blocks_removal_witness :
    RemoveNodeFromMIG false ⟨1, 10, 1⟩ [] ⟨0, 0, 0⟩
        ⟨3, ["projects/p/zones/z/instances/node-1"], 0⟩ true ""
        (fun _ => [⟨"idx", "0", "p", "STARTED", "1", "1", "", "ip", "node-1"⟩]) 2 ⟨""⟩
      = (.err ("error draining Elasticsearch node: failed while waiting for node removal: timeout trying to remove node from cluster settings in elasticsearch"),
          (DrainElasticsearchNode false "" "node-1"
            (fun _ => [⟨"idx", "0", "p", "STARTED", "1", "1", "", "ip", "node-1"⟩]) 2
            ⟨""⟩).2.1,
          .getTargetSize :: .listInstances ::
            (DrainElasticsearchNode false "" "node-1"
              (fun _ => [⟨"idx", "0", "p", "STARTED", "1", "1", "", "ip", "node-1"⟩]) 2
              ⟨""⟩).2.2)
    ∧ (RemoveNodeFromMIG false ⟨1, 10, 1⟩ [] ⟨0, 0, 0⟩
        ⟨3, ["projects/p/zones/z/instances/node-1"], 0⟩ true ""
        (fun _ => [⟨"idx", "0", "p", "STARTED", "1", "1", "", "ip", "node-1"⟩]) 2
        ⟨""⟩).2.2.all (fun ef => !ef.isDelete && !ef.isResize) = true
    ∧ "node-1" ∉ goSplit ',' ((RemoveNodeFromMIG false ⟨1, 10, 1⟩ [] ⟨0, 0, 0⟩
        ⟨3, ["projects/p/zones/z/instances/node-1"], 0⟩ true ""
        (fun _ => [⟨"idx", "0", "p", "STARTED", "1", "1", "", "ip", "node-1"⟩]) 2
        ⟨""⟩).2.1).excludes := by
  have h := drain_failure_blocks_removal false ⟨1, 10, 1⟩ [] ⟨0, 0, 0⟩
      ⟨3, ["projects/p/zones/z/instances/node-1"], 0⟩ ""
      (fun _ => [⟨"idx", "0", "p", "STARTED", "1", "1", "", "ip", "node-1"⟩]) 2 ⟨""⟩
      1 10 1 1
      "failed while waiting for node removal: timeout trying to remove node from cluster settings in elasticsearch"
      (by decide) (by decide) (by decide) (by rfl)
  exact ⟨h.1, h.2.1, h.2.2 (by decide)⟩

end Autoscaler
